import Mathlib

/-!
Verification of the DEX/UCS vending-machine simulator protocol engine
(`dex_vending_machine_simulator.py`) against its natural-language design
specification.

The shallow embedding below models bytes as `Nat` values in `0..255`,
byte strings as `List Nat`, and the serial link as explicit lists of
received bytes (input) and written byte strings (output).  Timeouts of
the polling loops are modelled as exhaustion of the finite input list.
All definitions are transcribed from the Python source; definitions
whose name contains `claimed` are instead transcribed from the words of
the specification, for comparison with the source.
-/

namespace DexSim

/-! ## Wire-format constants (source lines 5-22) -/

def ENQ : Nat := 0x05
def EOT : Nat := 0x04
def DLE : Nat := 0x10
def NAK : Nat := 0x15
def SOH : Nat := 0x01
def STX : Nat := 0x02
def ETX : Nat := 0x03
def ETB : Nat := 0x17

/-- Acknowledge 0, the two-byte sequence DLE + 0x30. -/
def ACK0 : List Nat := [DLE, 0x30]

/-- Acknowledge 1, the two-byte sequence DLE + 0x31. -/
def ACK1 : List Nat := [DLE, 0x31]

/-- The device communication identifier bytes, the ASCII string SWR0010001
(source line 21). -/
def VMD_CommunicationID : List Nat :=
  [0x53, 0x57, 0x52, 0x30, 0x30, 0x31, 0x30, 0x30, 0x30, 0x31]

/-- The revision-level bytes, the ASCII string R01L01 (source line 22). -/
def VMD_RevisionLevel : List Nat := [0x52, 0x30, 0x31, 0x4C, 0x30, 0x31]

/-! ## CRC16 engine (source lines 28-43) -/

/-- One iteration of the inner loop of `dex_crc16` for bit index `j` of
`byte`, acting on the running state `dwCRC`.  Transcribed line by line
from source lines 31-42. -/
def crcRound (byte dwCRC j : Nat) : Nat :=
  let DATA_0 := (byte >>> j) &&& 0x01
  let BCC_0 := dwCRC &&& 0x01
  let BCC_1 := (dwCRC >>> 1) &&& 0x01
  let BCC_14 := (dwCRC >>> 14) &&& 0x01
  let X16 := BCC_0 ^^^ DATA_0
  let X15 := BCC_1 ^^^ X16
  let X2 := BCC_14 ^^^ X16
  (((dwCRC >>> 1) &&& 0x5FFE) ||| X15) ||| (X2 <<< 13) ||| (X16 <<< 15)

/-- The per-byte CRC16 step of the source: the inner loop runs `crcRound`
for `j = 0, 1, ..., 7`. -/
def dex_crc16 (dwCRC byte : Nat) : Nat :=
  (List.range 8).foldl (crcRound byte) dwCRC

/-- Value of bit `i` of `n`, as the natural number 0 or 1. -/
def bitv (n i : Nat) : Nat := if Nat.testBit n i then 1 else 0

/-- Modelled from the spec: the per-byte CRC step as claim C1 literally
states it.  For each of the 8 bits of the input byte, LSB first, three
feedback bits are each the XOR of the input bit with bits 0, 1 and 14 of
the current state; the state is shifted right by one bit and masked with
0x5FFE, and then exactly two feedback bits are re-injected, into bit 13
(the one derived from bit 14) and bit 15 (the one derived from bit 0),
with no other bit position set. -/
def claimedRound (byte s j : Nat) : Nat :=
  let d := bitv byte j
  let f0 := bitv s 0 ^^^ d
  let f14 := bitv s 14 ^^^ d
  ((s >>> 1) &&& 0x5FFE) ||| (f14 <<< 13) ||| (f0 <<< 15)

/-- Modelled from the spec: the per-byte CRC function claim C1 describes,
folding `claimedRound` over the 8 bit positions. -/
def claimed_crc16 (s byte : Nat) : Nat :=
  (List.range 8).foldl (claimedRound byte) s

/-- The per-byte CRC step as the code actually computes it, written with
`Nat.testBit` bit extraction: `X16` is the XOR of the input bit with bit 0
of the state, `X15` is bit 1 of the state XOR `X16`, `X2` is bit 14 of the
state XOR `X16`; after the shift by one and the 0x5FFE mask, `X15` is
injected at bit 0, `X2` at bit 13 and `X16` at bit 15. -/
def amendedRound (byte s j : Nat) : Nat :=
  let d := bitv byte j
  let x16 := bitv s 0 ^^^ d
  let x15 := bitv s 1 ^^^ x16
  let x2 := bitv s 14 ^^^ x16
  (((s >>> 1) &&& 0x5FFE) ||| x15) ||| (x2 <<< 13) ||| (x16 <<< 15)

/-- The per-byte CRC function built from `amendedRound`. -/
def amended_crc16 (s byte : Nat) : Nat :=
  (List.range 8).foldl (amendedRound byte) s

/-! ## The three CRC fold call sites -/

/-- CRC fold used when validating the received first-handshake body
(source lines 122-125): a byte is folded in only when it differs from
both DLE and SOH. -/
def crcRecvCalc (message : List Nat) : Nat :=
  message.foldl
    (fun crc byte => if byte != DLE && byte != SOH then dex_crc16 crc byte else crc)
    0x0000

/-- CRC fold used for the outgoing second-handshake body (source lines
154-156): every byte is folded in. -/
def crcHandshakeCalc (message : List Nat) : Nat :=
  message.foldl (fun crc byte => dex_crc16 crc byte) 0x0000

/-- CRC fold used for an outgoing data line (source lines 199-202): a
byte is folded in only when it differs from DLE. -/
def crcLineCalc (data_bytes : List Nat) : Nat :=
  data_bytes.foldl
    (fun dwCRC byte => if byte != DLE then dex_crc16 dwCRC byte else dwCRC)
    0x0000

/-- Modelled from the spec: a single configurable CRC fold over a
message, skipping exactly the bytes selected by the exclusion predicate
`excl`, starting from state 0x0000. -/
def crcFoldExcluding (excl : Nat → Bool) (message : List Nat) : Nat :=
  message.foldl (fun crc byte => if excl byte then crc else dex_crc16 crc byte) 0x0000

/-- Little-endian encoding of a 16-bit value as two bytes
(`to_bytes(2, 'little')` in the source). -/
def toLE2 (n : Nat) : List Nat := [n % 256, n / 256 % 256]

/-- Little-endian decoding of two received bytes
(`int.from_bytes(b, 'little')` in the source). -/
def fromLE2 (lo hi : Nat) : Nat := lo + 256 * hi

/-! ## Transport wait primitives (source lines 57-91)

The serial link is modelled by the finite list of bytes that arrive
before the deadline of the enclosing polling loop; a loop that exhausts
the list without finding what it polls for has timed out. -/

/-- Shared model of `wait_for_enq` and `wait_for_eot`: read one byte at
a time, discarding non-matching bytes, until `target` is seen (returning
the remaining input) or the input is exhausted (timeout, `none`). -/
def waitForByte (target : Nat) : List Nat → Option (List Nat)
  | [] => none
  | b :: rest => if b == target then some rest else waitForByte target rest

/-- Model of `wait_for_ack`: read two bytes at a time, discarding
non-matching pairs, until the pair equals `expected` (returning the
remaining input) or the input is exhausted (timeout, `none`). -/
def waitForAck (expected : List Nat) : List Nat → Option (List Nat)
  | a :: b :: rest => if [a, b] == expected then some rest else waitForAck expected rest
  | _ => none

/-! ## First handshake, responder role (source lines 93-140) -/

/-- The test `len(message) >= 2 and message[-2:] == DLE + ETX` of source
line 108, also the test `message.endswith(DLE + ETX)` of source line
117: the last two bytes of the buffer are DLE followed by ETX. -/
def endsWithDleEtx (l : List Nat) : Bool :=
  match l.reverse with
  | e :: d :: _ => d == DLE && e == ETX
  | _ => false

/-- The body-read loop of source lines 104-109: read one byte at a time
into the growing buffer `acc` until the buffer's last two bytes are
DLE + ETX, returning the buffer and the remaining input.  `none` models
the loop never finding the terminator before the input ends. -/
def readBody (acc : List Nat) : List Nat → Option (List Nat × List Nat)
  | [] => none
  | b :: rest =>
    if endsWithDleEtx (acc ++ [b]) then some (acc ++ [b], rest)
    else readBody (acc ++ [b]) rest

/-- The distinct outcomes of `dex_first_handshake`, one per `return
False` site of the source plus success and input exhaustion. -/
inductive HandshakeResult where
  | enqTimeout
  | outOfInput
  | invalidFormat
  | crcMismatch
  | eotTimeout
  | success
  deriving DecidableEq

/-- Model of `dex_first_handshake` over the list of bytes received from
the link, returning the outcome together with the list of byte strings
written to the link (the ACKs).  Mirrors source lines 93-140: wait for
ENQ, send ACK0, read the body up to DLE + ETX, read the two CRC bytes,
check the DLE + ETX suffix, compare the received little-endian CRC with
the recomputed one (excluding DLE and SOH bytes), send ACK1, wait for
EOT. -/
def dex_first_handshake (input : List Nat) : HandshakeResult × List (List Nat) :=
  match waitForByte ENQ input with
  | none => (.enqTimeout, [])
  | some rest =>
    match readBody [] rest with
    | none => (.outOfInput, [ACK0])
    | some (message, rest2) =>
      match rest2 with
      | lo :: hi :: rest3 =>
        if ! endsWithDleEtx message then (.invalidFormat, [ACK0])
        else if fromLE2 lo hi != crcRecvCalc message then (.crcMismatch, [ACK0])
        else
          match waitForByte EOT rest3 with
          | none => (.eotTimeout, [ACK0, ACK1])
          | some _ => (.success, [ACK0, ACK1])
      | _ => (.outOfInput, [ACK0])

/-! ## Second handshake, initiator role (source lines 142-175) -/

/-- The operation-request body of source line 151:
DLE + SOH + communication id + the literal R byte + revision level +
DLE + ETX. -/
def secondHandshakeBody : List Nat :=
  [DLE, SOH] ++ VMD_CommunicationID ++ [0x52] ++ VMD_RevisionLevel ++ [DLE, ETX]

/-- Model of `dex_second_handshake` over the received bytes, returning
the success flag and the byte strings written to the link: ENQ, then
(once ACK0 has been read) the body followed by its little-endian CRC
computed with no byte excluded, then (once ACK1 has been read) EOT. -/
def dex_second_handshake (input : List Nat) : Bool × List (List Nat) :=
  let frame := secondHandshakeBody ++ toLE2 (crcHandshakeCalc secondHandshakeBody)
  match waitForAck ACK0 input with
  | none => (false, [[ENQ]])
  | some rest =>
    match waitForAck ACK1 rest with
    | none => (false, [[ENQ], frame])
    | some _ => (true, [[ENQ], frame, [EOT]])

/-! ## Data transfer loop (source lines 177-226) -/

/-- Python `str.isspace` restricted to the ASCII range, the character
set of EVA-DTS payload lines: horizontal tab, line feed, vertical tab,
form feed, carriage return, the four separator controls 0x1C-0x1F, and
space. -/
def pyIsSpace (c : Nat) : Bool :=
  c == 9 || c == 10 || c == 11 || c == 12 || c == 13 ||
    c == 28 || c == 29 || c == 30 || c == 31 || c == 32

/-- Python `str.strip()` on an ASCII line: remove leading and trailing
whitespace characters. -/
def pyStrip (l : List Nat) : List Nat :=
  ((l.dropWhile pyIsSpace).reverse.dropWhile pyIsSpace).reverse

/-- The argument `line.strip() + '\r\n'` built at source line 186 for
each payload line, as its byte encoding (payload lines are ASCII, so
UTF-8 encoding is the identity on code points). -/
def normalizeLine (l : List Nat) : List Nat := pyStrip l ++ [13, 10]

/-- Modelled from the spec: the data-line body exactly as claim C7 words
it — the line's text content with its ending normalized to exactly one
carriage-return/line-feed pair and the rest of the content preserved
unchanged: any trailing CR or LF bytes are removed and a single CR LF
pair is appended. -/
def claimedNormalize (l : List Nat) : List Nat :=
  (l.reverse.dropWhile (fun c => c == 13 || c == 10)).reverse ++ [13, 10]

/-- The response-polling loop of source lines 214-226, over the list of
responses read before the 5-second deadline: an ACK0 or ACK1 response
accepts the line, a NAK response causes an immediate retransmission of
`message` and the loop continues in the same window, any other response
is ignored, and exhaustion of the list is the timeout.  Returns the
retransmissions performed and whether the line was accepted. -/
def respLoop (message : List Nat) : List (List Nat) → List (List Nat) × Bool
  | [] => ([], false)
  | r :: rs =>
    if r == ACK0 || r == ACK1 then ([], true)
    else if r == [NAK] then
      let p := respLoop message rs
      (message :: p.1, p.2)
    else respLoop message rs

/-- The frame built by `send_data_line` (source lines 191-208): append
DLE + ETX to the line bytes when it is the last line and DLE + ETB
otherwise, compute the CRC excluding only DLE bytes, and frame as
DLE + STX + body + little-endian CRC. -/
def lineFrame (line : List Nat) (is_last_line : Bool) : List Nat :=
  let data_bytes := line ++ (if is_last_line then [DLE, ETX] else [DLE, ETB])
  [DLE, STX] ++ data_bytes ++ toLE2 (crcLineCalc data_bytes)

/-- Model of `send_data_line` (source lines 188-226): build the frame,
transmit it, then poll for responses.  Returns every transmission of the
frame, in order, and whether the line was accepted (`false` is the
timeout error report, after which the caller simply proceeds to the next
line). -/
def send_data_line (line : List Nat) (is_last_line : Bool)
    (responses : List (List Nat)) : List (List Nat) × Bool :=
  let message := lineFrame line is_last_line
  let p := respLoop message responses
  (message :: p.1, p.2)

/-- Model of `dex_transfer_file` (source lines 177-186): send ENQ and
wait for ACK0 (abandoning the whole transfer when it does not arrive),
then for each payload line `i`, in order, run `send_data_line` on
`line.strip() + '\r\n'` with the last-line flag set exactly on the final
index.  `responses` supplies the 2-byte reads seen during line `i`'s
polling window.  Returns the per-line results of `send_data_line`. -/
def dex_transfer_file (handshake_input : List Nat) (lines : List (List Nat))
    (responses : List (List (List Nat))) : List (List (List Nat) × Bool) :=
  match waitForAck ACK0 handshake_input with
  | none => []
  | some _ =>
    (List.range lines.length).map (fun i =>
      send_data_line (normalizeLine (lines.getD i []))
        (i == lines.length - 1) (responses.getD i []))

end DexSim

namespace DexSim

/-! ## Basic facts about the CRC engine -/

/-- Extracting bit `i` with `Nat.testBit` agrees with the shift-and-mask
idiom of the source. -/
theorem bitv_eq (n i : Nat) : bitv n i = (n >>> i) &&& 1 := by
  rw [Nat.shiftRight_eq_div_pow, Nat.and_one_is_mod]
  unfold bitv
  rw [Nat.testBit_to_div_mod]
  have h : n / 2 ^ i % 2 = 0 ∨ n / 2 ^ i % 2 = 1 := by omega
  rcases h with h | h <;> simp [h]

/-- The source's round and the testBit-style round compute the same
function. -/
theorem crcRound_eq_amendedRound (byte s j : Nat) :
    crcRound byte s j = amendedRound byte s j := by
  simp only [crcRound, amendedRound, bitv_eq, Nat.shiftRight_zero]

/-- The XOR of two bits is a bit. -/
theorem xor_le_one {a b : Nat} (ha : a ≤ 1) (hb : b ≤ 1) : a ^^^ b ≤ 1 := by
  interval_cases a <;> interval_cases b <;> decide

/-- Every output of a single CRC round fits in 16 bits, whatever the
state and byte inputs are. -/
theorem crcRound_lt (byte s j : Nat) : crcRound byte s j < 2 ^ 16 := by
  unfold crcRound
  have hd : (byte >>> j) &&& 0x01 ≤ 1 := Nat.and_le_right
  have h0 : s &&& 0x01 ≤ 1 := Nat.and_le_right
  have h1 : (s >>> 1) &&& 0x01 ≤ 1 := Nat.and_le_right
  have h14 : (s >>> 14) &&& 0x01 ≤ 1 := Nat.and_le_right
  have hx16 : (s &&& 0x01) ^^^ ((byte >>> j) &&& 0x01) ≤ 1 := xor_le_one h0 hd
  have hx15 : ((s >>> 1) &&& 0x01) ^^^ ((s &&& 0x01) ^^^ ((byte >>> j) &&& 0x01)) ≤ 1 :=
    xor_le_one h1 hx16
  have hx2 : ((s >>> 14) &&& 0x01) ^^^ ((s &&& 0x01) ^^^ ((byte >>> j) &&& 0x01)) ≤ 1 :=
    xor_le_one h14 hx16
  refine Nat.or_lt_two_pow (Nat.or_lt_two_pow (Nat.or_lt_two_pow ?_ ?_) ?_) ?_
  · exact lt_of_le_of_lt Nat.and_le_right (by norm_num)
  · omega
  · rw [Nat.shiftLeft_eq]
    calc _ ≤ 1 * 2 ^ 13 := Nat.mul_le_mul_right _ hx2
    _ < 2 ^ 16 := by norm_num
  · rw [Nat.shiftLeft_eq]
    calc _ ≤ 1 * 2 ^ 15 := Nat.mul_le_mul_right _ hx16
    _ < 2 ^ 16 := by norm_num

/-- Unrolling: the per-byte step ends with round index 7. -/
theorem dex_crc16_eq_round7 (s b : Nat) :
    dex_crc16 s b = crcRound b ((List.range 7).foldl (crcRound b) s) 7 := by
  show (List.range 8).foldl (crcRound b) s = _
  rw [List.range_succ, List.foldl_append]
  rfl

/-- C10: for every non-negative input state, of any magnitude, and every
byte in 0..255, `dex_crc16` returns a value in 0..0xFFFF: the
shift-mask-reinject step confines the result to 16 bits, so the fold is
closed over uint16 states. -/
theorem dex_crc16_closed_uint16 (s b : Nat) (hb : b ≤ 255) :
    dex_crc16 s b ≤ 0xFFFF := by
  have h := crcRound_lt b ((List.range 7).foldl (crcRound b) s) 7
  rw [dex_crc16_eq_round7]
  omega

/-- Witness for C10 at state 70000 (wider than 16 bits) and byte 7. -/
theorem dex_crc16_closed_uint16_witness :
    (7 : Nat) ≤ 255 ∧ dex_crc16 70000 7 ≤ 0xFFFF :=
  ⟨by decide, dex_crc16_closed_uint16 70000 7 (by decide)⟩

/-- C1 counterexample: folding the per-byte step exactly as the claim
words it (only two feedback bits re-injected, at bits 13 and 15, each
derived by XOR of the input bit with a state bit, and no other bit
position set) disagrees with the source's `dex_crc16` already at state
0x0000 and byte 0x01: the code also injects the feedback bit `X15` at
bit 0. -/
theorem claimed_crc16_ne_dex_crc16 : claimed_crc16 0 1 ≠ dex_crc16 0 1 := by decide

/-- C1 amended: `dex_crc16` folds, for each of the 8 bits of the input
byte LSB first, the step that derives `X16` as the XOR of the input bit
with bit 0 of the state, `X15` as bit 1 of the state XOR `X16`, and `X2`
as bit 14 of the state XOR `X16`, shifts the state right by one bit,
masks with 0x5FFE, and re-injects the three feedback bits: `X15` into
bit 0, `X2` into bit 13 and `X16` into bit 15. -/
theorem dex_crc16_eq_amended (s b : Nat) : dex_crc16 s b = amended_crc16 s b := by
  unfold dex_crc16 amended_crc16
  congr 1
  funext x j
  exact crcRound_eq_amendedRound b x j

/-- C3: the three CRC call sites are the configurable fold with three
distinct exclusion predicates: received-handshake validation skips bytes
equal to DLE or SOH, the outgoing data line skips only bytes equal to
DLE, and the outgoing handshake body skips nothing. -/
theorem crcRecvCalc_eq_fold (m : List Nat) :
    crcRecvCalc m = crcFoldExcluding (fun b => b == DLE || b == SOH) m := by
  simp only [crcRecvCalc, crcFoldExcluding]
  congr 1
  funext crc byte
  by_cases h1 : byte = DLE <;> by_cases h2 : byte = SOH <;> simp [h1, h2]

theorem crcLineCalc_eq_fold (m : List Nat) :
    crcLineCalc m = crcFoldExcluding (fun b => b == DLE) m := by
  simp only [crcLineCalc, crcFoldExcluding]
  congr 1
  funext crc byte
  by_cases h1 : byte = DLE <;> simp [h1]

theorem crcHandshakeCalc_eq_fold (m : List Nat) :
    crcHandshakeCalc m = crcFoldExcluding (fun _ => false) m := by
  simp only [crcHandshakeCalc, crcFoldExcluding]
  congr 1

theorem crc_call_site_exclusions :
    (∀ m, crcRecvCalc m = crcFoldExcluding (fun b => b == DLE || b == SOH) m) ∧
    (∀ m, crcLineCalc m = crcFoldExcluding (fun b => b == DLE) m) ∧
    (∀ m, crcHandshakeCalc m = crcFoldExcluding (fun _ => false) m) :=
  ⟨crcRecvCalc_eq_fold, crcLineCalc_eq_fold, crcHandshakeCalc_eq_fold⟩

/-- C8 counterexample: the four-byte message DLE, SOH, 0xC1, SOH contains
a DLE byte and a SOH byte, yet the fold that excludes DLE and SOH and the
fold that excludes only DLE produce the same final CRC on it, so the two
modes are not distinct on every such message. -/
theorem crc_modes_coincide :
    DLE ∈ [DLE, SOH, 0xC1, SOH] ∧ SOH ∈ [DLE, SOH, 0xC1, SOH] ∧
    crcFoldExcluding (fun b => b == DLE || b == SOH) [DLE, SOH, 0xC1, SOH] =
      crcFoldExcluding (fun b => b == DLE) [DLE, SOH, 0xC1, SOH] := by
  refine ⟨by decide, by decide, by decide⟩

/-- C8 amended: the two exclusion modes are genuinely distinct
computations — there is a byte sequence containing a DLE byte and a SOH
byte on which they disagree (the two-byte sequence DLE, SOH) — but they
do not disagree on every sequence that contains DLE and SOH bytes. -/
theorem crc_modes_distinct :
    (DLE ∈ [DLE, SOH] ∧ SOH ∈ [DLE, SOH] ∧
      crcFoldExcluding (fun b => b == DLE || b == SOH) [DLE, SOH] ≠
        crcFoldExcluding (fun b => b == DLE) [DLE, SOH]) ∧
    ¬ (∀ m : List Nat, DLE ∈ m → SOH ∈ m →
        crcFoldExcluding (fun b => b == DLE || b == SOH) m ≠
          crcFoldExcluding (fun b => b == DLE) m) := by
  refine ⟨⟨by decide, by decide, by decide⟩, fun h => ?_⟩
  exact h [DLE, SOH, 0xC1, SOH] (by decide) (by decide) (by decide)

end DexSim

namespace DexSim

/-! ## First-handshake body reading -/

/-- The body-read loop returns only buffers whose last two bytes are
DLE followed by ETX. -/
theorem readBody_endsWith (input : List Nat) : ∀ acc message rest,
    readBody acc input = some (message, rest) → endsWithDleEtx message = true := by
  induction input with
  | nil => intro acc message rest h; simp [readBody] at h
  | cons b t ih =>
    intro acc message rest h
    rw [readBody] at h
    by_cases hc : endsWithDleEtx (acc ++ [b]) = true
    · rw [if_pos hc] at h
      have h1 : acc ++ [b] = message := (Prod.mk.injEq _ _ _ _ ▸ Option.some.inj h).1
      exact h1 ▸ hc
    · rw [if_neg hc] at h
      exact ih (acc ++ [b]) message rest h

/-- C9: the body-read loop exits only when the accumulated buffer's last
two bytes equal DLE + ETX, so the subsequent malformed-frame check is
unreachable and `dex_first_handshake` never returns the invalid-format
failure. -/
theorem first_handshake_no_invalid_format :
    (∀ input message rest, readBody [] input = some (message, rest) →
      endsWithDleEtx message = true) ∧
    (∀ input, (dex_first_handshake input).1 ≠ HandshakeResult.invalidFormat) := by
  constructor
  · intro input message rest h
    exact readBody_endsWith input [] message rest h
  · intro input
    unfold dex_first_handshake
    split
    · simp
    · next rest hwe =>
      split
      · simp
      · next message rest2 hrb =>
        have he : endsWithDleEtx message = true :=
          readBody_endsWith rest [] message rest2 hrb
        split
        · split
          · next hend =>
            rw [he] at hend
            simp at hend
          · split
            · simp
            · split <;> simp
        · simp

/-- Witness for C9 at the two-byte input DLE, ETX. -/
theorem first_handshake_no_invalid_format_witness :
    readBody [] [DLE, ETX] = some ([DLE, ETX], []) ∧
    endsWithDleEtx [DLE, ETX] = true ∧
    (dex_first_handshake []).1 ≠ HandshakeResult.invalidFormat :=
  ⟨by decide,
    first_handshake_no_invalid_format.1 [DLE, ETX] [DLE, ETX] [] (by decide),
    first_handshake_no_invalid_format.2 []⟩

/-! ## Second handshake -/

set_option maxRecDepth 4096 in
/-- C2: once ENQ has been sent and ACK0 received, the second byte string
the second handshake writes is exactly DLE + SOH + SWR0010001 + R +
R01L01 + DLE + ETX followed by the two-byte little-endian CRC computed
over that entire body with no byte excluded from the fold; concretely
the CRC is 0x026B, sent as 0x6B then 0x02. -/
theorem second_handshake_frame (input rest : List Nat)
    (h : waitForAck ACK0 input = some rest) :
    ((dex_second_handshake input).2)[1]? =
      some (secondHandshakeBody ++ toLE2 (crcHandshakeCalc secondHandshakeBody)) ∧
    secondHandshakeBody =
      [0x10, 0x01, 0x53, 0x57, 0x52, 0x30, 0x30, 0x31, 0x30, 0x30,
       0x30, 0x31, 0x52, 0x52, 0x30, 0x31, 0x4C, 0x30, 0x31, 0x10, 0x03] ∧
    toLE2 (crcHandshakeCalc secondHandshakeBody) = [0x6B, 0x02] := by
  refine ⟨?_, by decide, by decide⟩
  unfold dex_second_handshake
  rw [h]
  rcases hA : waitForAck ACK1 rest with _ | r <;> simp [hA]

/-- Witness for C2: with ACK0 and ACK1 on the link, the transmitted
frame is the 23-byte sequence ending in 0x6B, 0x02. -/
theorem second_handshake_frame_witness :
    waitForAck ACK0 [0x10, 0x30, 0x10, 0x31] = some [0x10, 0x31] ∧
    ((dex_second_handshake [0x10, 0x30, 0x10, 0x31]).2)[1]? =
      some (secondHandshakeBody ++ toLE2 (crcHandshakeCalc secondHandshakeBody)) :=
  ⟨by decide,
    (second_handshake_frame [0x10, 0x30, 0x10, 0x31] [0x10, 0x31] (by decide)).1⟩

end DexSim

namespace DexSim

/-- C6: the first handshake sends ACK1 only when the received
little-endian CRC equals the CRC recomputed over the buffered body with
DLE and SOH bytes excluded; on a mismatch it returns the checksum
failure outcome, with ACK0 as its only write, so ACK1 is never sent. -/
theorem first_handshake_crc_check :
    (∀ input rest message lo hi rest3,
      waitForByte ENQ input = some rest →
      readBody [] rest = some (message, lo :: hi :: rest3) →
      fromLE2 lo hi ≠ crcRecvCalc message →
      dex_first_handshake input = (HandshakeResult.crcMismatch, [ACK0]) ∧
        ACK1 ∉ ([ACK0] : List (List Nat))) ∧
    (∀ input, ACK1 ∈ (dex_first_handshake input).2 →
      ∃ rest message lo hi rest3,
        waitForByte ENQ input = some rest ∧
        readBody [] rest = some (message, lo :: hi :: rest3) ∧
        fromLE2 lo hi = crcRecvCalc message) := by
  constructor
  · intro input rest message lo hi rest3 hwe hrb hcrc
    have he : endsWithDleEtx message = true :=
      readBody_endsWith rest [] message (lo :: hi :: rest3) hrb
    refine ⟨?_, by decide⟩
    unfold dex_first_handshake
    simp only [hwe]
    simp only [hrb]
    simp [he, hcrc, bne_iff_ne]
  · intro input hmem
    unfold dex_first_handshake at hmem
    split at hmem
    · simp at hmem
    · next rest hwe =>
      split at hmem
      · exact absurd (by simpa using hmem) (by decide)
      · next message rest2 hrb =>
        split at hmem
        · next lo hi rest3 =>
          split at hmem
          · exact absurd (by simpa using hmem) (by decide)
          · split at hmem
            · exact absurd (by simpa using hmem) (by decide)
            · next hc =>
              have hceq : fromLE2 lo hi = crcRecvCalc message := by
                simpa using hc
              exact ⟨rest, message, lo, hi, rest3, hwe, hrb, hceq⟩
        · exact absurd (by simpa using hmem) (by decide)

/-- Witness for C6: input ENQ, DLE, ETX, 0x00, 0x00 carries the body
DLE + ETX with received CRC 0x0000, while the recomputed CRC is 0x0140,
so the handshake ends in the checksum failure having written only
ACK0. -/
theorem first_handshake_crc_check_witness :
    fromLE2 0 0 ≠ crcRecvCalc [DLE, ETX] ∧
    dex_first_handshake [ENQ, DLE, ETX, 0, 0] = (HandshakeResult.crcMismatch, [ACK0]) :=
  ⟨by decide,
    (first_handshake_crc_check.1 [ENQ, DLE, ETX, 0, 0] [DLE, ETX, 0, 0]
      [DLE, ETX] 0 0 [] (by decide) (by decide) (by decide)).1⟩

end DexSim

namespace DexSim

/-! ## Data-line response handling -/

/-- Every byte string the response loop retransmits is the original
frame. -/
theorem respLoop_all_eq (message : List Nat) (rs : List (List Nat)) :
    ∀ f ∈ (respLoop message rs).1, f = message := by
  induction rs with
  | nil => simp [respLoop]
  | cons r t ih =>
    intro f hf
    rw [respLoop] at hf
    by_cases h1 : (r == ACK0 || r == ACK1) = true
    · rw [if_pos h1] at hf
      simp at hf
    · rw [if_neg h1] at hf
      by_cases h2 : (r == [NAK]) = true
      · rw [if_pos h2] at hf
        rcases List.mem_cons.mp hf with h | h
        · exact h
        · exact ih f h
      · rw [if_neg h2] at hf
        exact ih f hf

/-- A run of NAK responses followed by an accepting acknowledgment makes
the loop retransmit the frame once per NAK and then accept. -/
theorem respLoop_nak_run (message ack : List Nat)
    (hack : ack = ACK0 ∨ ack = ACK1) (n : Nat) :
    respLoop message (List.replicate n [NAK] ++ [ack]) =
      (List.replicate n message, true) := by
  induction n with
  | zero =>
    rcases hack with rfl | rfl <;>
      simp [respLoop]
  | succ n ih =>
    rw [List.replicate_succ, List.cons_append, respLoop]
    have h1 : (([NAK] : List Nat) == ACK0 || ([NAK] : List Nat) == ACK1) = false := by decide
    have h2 : (([NAK] : List Nat) == [NAK]) = true := by decide
    rw [h1, if_neg (by simp), if_pos h2, ih, List.replicate_succ]

/-- C4: response handling for one data line.  An ACK0 or ACK1 response
accepts the line with no retransmission; a run of `n` NAK responses
causes exactly `n` retransmissions of the byte-identical frame within
the same polling window, with no retry limit other than the window's
end; an empty response window reports failure and performs no
retransmission (the caller then simply moves on to the next line); and
every transmission ever performed is the identical frame. -/
theorem send_data_line_response_policy (line : List Nat) (is_last : Bool)
    (n : Nat) (ack : List Nat) (hack : ack = ACK0 ∨ ack = ACK1) :
    (∀ rs, send_data_line line is_last (ack :: rs) =
      ([lineFrame line is_last], true)) ∧
    send_data_line line is_last (List.replicate n [NAK] ++ [ack]) =
      (List.replicate (n + 1) (lineFrame line is_last), true) ∧
    send_data_line line is_last [] = ([lineFrame line is_last], false) ∧
    (∀ rs f, f ∈ (send_data_line line is_last rs).1 →
      f = lineFrame line is_last) := by
  refine ⟨?_, ?_, ?_, ?_⟩
  · intro rs
    have h1 : (ack == ACK0 || ack == ACK1) = true := by
      rcases hack with rfl | rfl <;> simp
    simp [send_data_line, respLoop, h1]
  · have h := respLoop_nak_run (lineFrame line is_last) ack hack n
    simp [send_data_line, h, List.replicate_succ]
  · simp [send_data_line, respLoop]
  · intro rs f hf
    simp only [send_data_line] at hf
    rcases List.mem_cons.mp hf with h | h
    · exact h
    · exact respLoop_all_eq (lineFrame line is_last) rs f h

/-- Witness for C4: with responses NAK, NAK, ACK0 the engine transmits
the identical frame three times in total and accepts the line; with no
response it transmits once and reports failure. -/
theorem send_data_line_response_policy_witness :
    (ACK0 = ACK0 ∨ ACK0 = ACK1) ∧
    send_data_line [0x41] true [[NAK], [NAK], ACK0] =
      ([lineFrame [0x41] true, lineFrame [0x41] true, lineFrame [0x41] true],
        true) ∧
    send_data_line [0x41] true [] = ([lineFrame [0x41] true], false) :=
  ⟨Or.inl rfl,
    (send_data_line_response_policy [0x41] true 2 ACK0 (Or.inl rfl)).2.1,
    (send_data_line_response_policy [0x41] true 2 ACK0 (Or.inl rfl)).2.2.1⟩

end DexSim

namespace DexSim

/-! ## Transfer-loop framing -/

/-- C5: once the pre-transfer ACK0 has been received, the transfer loop
produces one `send_data_line` result per payload line, and the frame
first transmitted for line `i` is DLE + STX followed by the line body
followed by the little-endian CRC of the body, where the body's framing
suffix is DLE + ETB for every line except the last and DLE + ETX for the
last line. -/
theorem transfer_file_framing (hs rest : List Nat) (lines : List (List Nat))
    (resp : List (List (List Nat))) (i : Nat)
    (hack : waitForAck ACK0 hs = some rest) (hi : i < lines.length) :
    (dex_transfer_file hs lines resp).length = lines.length ∧
    ∃ r, (dex_transfer_file hs lines resp)[i]? = some r ∧
      r.1.head? = some ([DLE, STX] ++
        (normalizeLine (lines.getD i []) ++
          (if i == lines.length - 1 then [DLE, ETX] else [DLE, ETB])) ++
        toLE2 (crcLineCalc (normalizeLine (lines.getD i []) ++
          (if i == lines.length - 1 then [DLE, ETX] else [DLE, ETB])))) := by
  unfold dex_transfer_file
  simp only [hack]
  constructor
  · simp
  · refine ⟨send_data_line (normalizeLine (lines.getD i []))
      (i == lines.length - 1) (resp.getD i []), ?_, ?_⟩
    · rw [List.getElem?_map, List.getElem?_range hi]
      rfl
    · simp [send_data_line, lineFrame]

set_option maxRecDepth 8192 in
/-- Witness for C5 on the two-line payload A1B2, C3D4: the second (last)
line is framed with the DLE + ETX suffix and its own CRC, byte for
byte. -/
theorem transfer_file_framing_witness :
    waitForAck ACK0 [0x10, 0x30] = some [] ∧
    (∃ r, (dex_transfer_file [0x10, 0x30]
        [[0x41, 0x31, 0x42, 0x32], [0x43, 0x33, 0x44, 0x34]] [])[1]? = some r ∧
      r.1.head? = some [0x10, 0x02, 0x43, 0x33, 0x44, 0x34, 0x0D, 0x0A,
        0x10, 0x03, 0x5E, 0x5A]) := by
  refine ⟨by decide, ?_⟩
  obtain ⟨r, h1, h2⟩ := (transfer_file_framing [0x10, 0x30] []
    [[0x41, 0x31, 0x42, 0x32], [0x43, 0x33, 0x44, 0x34]] [] 1
    (by decide) (by decide)).2
  refine ⟨r, h1, ?_⟩
  rw [h2]
  decide

/-! ## Line normalization -/

/-- The first element surviving `dropWhile` fails the predicate. -/
theorem head_dropWhile_false (p : Nat → Bool) (l : List Nat) :
    ∀ c, (l.dropWhile p).head? = some c → p c = false := by
  induction l with
  | nil => intro c h; simp at h
  | cons a t ih =>
    intro c h
    rw [List.dropWhile_cons] at h
    by_cases ha : p a = true
    · rw [if_pos ha] at h
      exact ih c h
    · rw [if_neg ha] at h
      have hac : a = c := by simpa using h
      simp only [Bool.not_eq_true] at ha
      exact hac ▸ ha

set_option maxRecDepth 8192 in
/-- C7 counterexample: for the line made of a space then the letter A,
the claimed normalization keeps the leading space, but the body the
transfer loop transmits has it stripped: the code applies Python
`strip()`, which also removes leading whitespace and trailing whitespace
other than line endings. -/
theorem line_body_counterexample :
    normalizeLine [0x20, 0x41] ≠ claimedNormalize [0x20, 0x41] ∧
    claimedNormalize [0x20, 0x41] = [0x20, 0x41, 0x0D, 0x0A] ∧
    (dex_transfer_file [0x10, 0x30] [[0x20, 0x41]] [])[0]? =
      some ([[0x10, 0x02, 0x41, 0x0D, 0x0A, 0x10, 0x03, 0xC3, 0x5E]], false) :=
  ⟨by decide, by decide, by decide⟩

/-- C7 amended: the data-line body transmitted by the transfer loop is
the line with its leading and trailing whitespace removed (Python
`strip()`) and a single carriage-return/line-feed pair appended: the
normalized line splits the original as whitespace + core + whitespace,
and the core, which neither starts nor ends with a whitespace character,
is what precedes the appended CR LF pair. -/
theorem line_body_amended (l : List Nat) :
    normalizeLine l = pyStrip l ++ [0x0D, 0x0A] ∧
    (∃ pre post, l = pre ++ pyStrip l ++ post ∧
      (∀ c ∈ pre, pyIsSpace c = true) ∧
      (∀ c ∈ post, pyIsSpace c = true)) ∧
    (∀ c, (pyStrip l).head? = some c → pyIsSpace c = false) ∧
    (∀ c, (pyStrip l).getLast? = some c → pyIsSpace c = false) := by
  have hd : l.takeWhile pyIsSpace ++ l.dropWhile pyIsSpace = l :=
    List.takeWhile_append_dropWhile pyIsSpace l
  have h3 : l.dropWhile pyIsSpace = pyStrip l ++
      ((l.dropWhile pyIsSpace).reverse.takeWhile pyIsSpace).reverse := by
    have h2 := List.takeWhile_append_dropWhile pyIsSpace (l.dropWhile pyIsSpace).reverse
    conv_lhs => rw [← List.reverse_reverse (l.dropWhile pyIsSpace), ← h2]
    rw [List.reverse_append]
    rfl
  refine ⟨rfl, ?_, ?_, ?_⟩
  · refine ⟨l.takeWhile pyIsSpace,
      ((l.dropWhile pyIsSpace).reverse.takeWhile pyIsSpace).reverse, ?_, ?_, ?_⟩
    · conv_lhs => rw [← hd, h3]
      exact (List.append_assoc _ _ _).symm
    · intro c hc
      exact List.mem_takeWhile_imp hc
    · intro c hc
      exact List.mem_takeWhile_imp (List.mem_reverse.mp hc)
  · intro c hc
    have hdhead : (l.dropWhile pyIsSpace).head? = some c := by
      rw [h3]
      rcases he : pyStrip l with _ | ⟨x, xs⟩
      · rw [he] at hc
        simp at hc
      · rw [he] at hc
        simpa using hc
    exact head_dropWhile_false pyIsSpace l c hdhead
  · intro c hc
    simp only [pyStrip] at hc
    rw [List.getLast?_reverse] at hc
    exact head_dropWhile_false pyIsSpace _ c hc

end DexSim

namespace DexSim

/-- Witness for C7 amended at the line space, A, line feed: the stripped
core is the single byte A, whose head is not whitespace, and the
normalized body is that core followed by CR LF. -/
theorem line_body_amended_witness :
    (pyStrip [0x20, 0x41, 0x0A]).head? = some 0x41 ∧
    pyIsSpace 0x41 = false ∧
    normalizeLine [0x20, 0x41, 0x0A] = pyStrip [0x20, 0x41, 0x0A] ++ [0x0D, 0x0A] :=
  ⟨by decide,
    (line_body_amended [0x20, 0x41, 0x0A]).2.2.1 0x41 (by decide),
    (line_body_amended [0x20, 0x41, 0x0A]).1⟩

end DexSim
